import Mathlib

/-!
# go-rich progress subsystem: shallow embedding and verification

This file embeds, in Lean 4, the progress-rendering subsystem of the
`go-rich` repository: the rate tracker (`progress/tracker.go`), the
`ProgressBar` and `Spinner` indicator models, and the `Progress` redraw
engine (task registry, update operations, and the repaint step).

Modelling conventions:
* Go `int`/`int64` values are modelled as `ℤ` (no overflow is relevant to
  the properties at hand); Go slice lengths and indices as `ℕ`.
* `time.Time` timestamps and `time.Duration` values are modelled as `ℚ`
  in seconds; `time.Now()` becomes an explicit `now : ℚ` parameter
  threaded through the operations that sample the clock.
* Go float64 arithmetic is modelled exactly over `ℚ`; the conversion
  `int(x)` (truncation toward zero) is `truncToInt`.
* The styling collaborator (`rich.Style`, `rich.Color`) is embedded with
  its fields; colors carry only an opaque tag since no claim inspects a
  color's contents.
* The Go map `tasks map[TaskID]*Task` is modelled as an association list
  (Go's iteration order is unspecified; none of the verified properties
  depend on the order).
-/

namespace GoRich

/-- `rich.Color` is an interface in `color.go` (ANSIColor, ANSI256Color,
RGBColor); no verified property inspects a color, so we keep an opaque tag
plus the nil interface value. -/
inductive Color where
  | nil : Color
  | tag : ℕ → Color
deriving Repr, DecidableEq

/-- `rich.Style` from `style.go`: immutable text style. -/
structure Style where
  fg : Color := Color.nil
  bg : Color := Color.nil
  bold : Bool := false
  italic : Bool := false
  underline : Bool := false
  strikethrough : Bool := false
  dim : Bool := false
  reverse : Bool := false
deriving Repr, DecidableEq

/-- `rich.NewStyle()`: the empty style. -/
def NewStyle : Style := {}

/-- `rich.Segment` from `segment.go`: a (text, style) pair. -/
structure Segment where
  Text : String
  Style : Style
deriving Repr, DecidableEq

/-- `rich.Segments`. -/
abbrev Segments := List Segment

/-- `Segments.String()` from `segment.go`: concatenation of the texts.
`Segments.ToANSI(ColorModeNone)` returns exactly this. -/
def Segments.toPlainString (s : Segments) : String :=
  s.foldl (fun acc seg => acc ++ seg.Text) ""

/-! ## Rate tracker (`progress/tracker.go`) -/

/-- `sample` from `tracker.go`: a single progress measurement. -/
structure Sample where
  timestamp : ℚ
  value : ℤ
deriving Repr, DecidableEq

/-- `Tracker` from `tracker.go` (the mutex only serialises access and has
no sequential meaning). -/
structure Tracker where
  startTime : ℚ
  samples : List Sample
  smoothAlpha : ℚ
deriving Repr, DecidableEq

/-- `newTracker()` from `tracker.go`. -/
def newTracker (now : ℚ) : Tracker :=
  { startTime := now, samples := [], smoothAlpha := 1/2 }

/-- `Tracker.update` from `tracker.go`: append a `(now, value)` sample,
then, if the window exceeds 100 samples, prune via
`copy(t.samples, t.samples[50:]); t.samples = t.samples[:50]`, which keeps
the first 50 elements of `samples[50:]`, i.e. `(s.drop 50).take 50`. -/
def Tracker.update (t : Tracker) (now : ℚ) (value : ℤ) : Tracker :=
  let s := t.samples ++ [⟨now, value⟩]
  if s.length > 100 then
    { t with samples := (s.drop 50).take 50 }
  else
    { t with samples := s }

/-- The endpoint computation at the end of `Tracker.speed`: Go reads
`windowSamples[0]` and `windowSamples[len-1]` (both in range because the
caller established `len ≥ 2`); the `Option` match embeds that indexing. -/
def speedEndpoints (win : List Sample) : ℚ :=
  match win.head?, win.getLast? with
  | some first, some last =>
      let deltaValue : ℚ := ((last.value - first.value : ℤ) : ℚ)
      let deltaTime : ℚ := last.timestamp - first.timestamp
      if deltaTime = 0 then 0 else deltaValue / deltaTime
  | _, _ => 0

/-- `Tracker.speed` from `tracker.go`. The Go loop walks the window from
the newest sample backwards, prepending each sample whose age is at most
2 seconds and `break`ing at the first older one; that collects exactly
`(samples.reverse.takeWhile age≤2).reverse`. The inner
`else { return 0 }` branch (window too small and fewer than 2 samples
overall) is kept even though the outer guard makes it dead code. -/
def Tracker.speed (t : Tracker) (now : ℚ) : ℚ :=
  if t.samples.length < 2 then 0
  else
    let windowSamples :=
      (t.samples.reverse.takeWhile (fun s => decide (now - s.timestamp ≤ 2))).reverse
    if windowSamples.length < 2 ∧ ¬ t.samples.length ≥ 2 then 0
    else
      let windowSamples :=
        if windowSamples.length < 2 then t.samples else windowSamples
      speedEndpoints windowSamples

/-- `Tracker.eta` from `tracker.go`, with durations in seconds
(`24 * time.Hour` is 86400 s). -/
def Tracker.eta (t : Tracker) (now : ℚ) (current total : ℤ) : ℚ :=
  if current ≥ total then 0
  else
    let spd := t.speed now
    if spd ≤ 0 then 0
    else
      let remaining : ℚ := ((total - current : ℤ) : ℚ)
      let secondsRemaining := remaining / spd
      if secondsRemaining > 86400 then 86400 else secondsRemaining

/-- The speed algorithm as the specification words it: return 0 with fewer
than two samples; otherwise select the suffix of the window whose
timestamps fall within the last 2 seconds of `now` (the maximal such
suffix, i.e. `takeWhile` from the newest end), fall back to the entire
window when that suffix has fewer than 2 samples, and compute
`(last.value - first.value) / (last.timestamp - first.timestamp)` over the
selected suffix's endpoints, 0 when that time difference is zero. -/
def speedSpec (samples : List Sample) (now : ℚ) : ℚ :=
  if samples.length < 2 then 0
  else
    let suffix :=
      (samples.reverse.takeWhile (fun s => decide (now - s.timestamp ≤ 2))).reverse
    let sel := if suffix.length < 2 then samples else suffix
    match sel.head?, sel.getLast? with
    | some first, some last =>
        if last.timestamp - first.timestamp = 0 then 0
        else ((last.value - first.value : ℤ) : ℚ) / (last.timestamp - first.timestamp)
    | _, _ => 0

/-! ## Progress bar (`progress/bar.go`, `src/unnamed/part_010`) -/

/-- Go's `int(x)` conversion from float64: truncation toward zero,
modelled over `ℚ`. -/
def truncToInt (q : ℚ) : ℤ := if q < 0 then ⌈q⌉ else ⌊q⌋

/-- `strings.Repeat(s, n)`; the callers only reach it with `n > 0`. -/
def stringsRepeat (s : String) (n : ℤ) : String :=
  String.join (List.replicate n.toNat s)

/-- The digit-building loop of `formatInt`: digits of `n` least
significant first, as in the Go loop before the reversal. -/
def formatIntDigitsRev : ℕ → List Char
  | 0 => []
  | n + 1 =>
      Char.ofNat (48 + (n + 1) % 10) :: formatIntDigitsRev ((n + 1) / 10)
decreasing_by exact Nat.div_lt_self (Nat.succ_pos n) (by norm_num)

/-- `formatInt` from `bar.go`: decimal rendering without fmt/strconv. -/
def formatInt (n : ℤ) : String :=
  if n = 0 then "0"
  else
    let digits := (formatIntDigitsRev n.natAbs).reverse
    if n < 0 then "-" ++ String.mk digits else String.mk digits

/-- `formatPercentage` from `bar.go`: `pct := int(p*1000 + 0.5)`, then
whole/decimal split by Go's truncated division and remainder. -/
def formatPercentage (p : ℚ) : String :=
  let pct : ℤ := truncToInt (p * 1000 + 1/2)
  let whole := Int.tdiv pct 10
  let decimal := Int.tmod pct 10
  if decimal = 0 then formatInt whole ++ "%"
  else formatInt whole ++ "." ++ formatInt decimal ++ "%"

/-- `ProgressBar` from `bar.go`. -/
structure ProgressBar where
  current : ℤ
  total : ℤ
  description : String
  width : ℤ
  barStyle : Style
  completeStyle : Style
  remainingStyle : Style
  completeChar : String
  remainingChar : String
  tracker : Tracker
deriving Repr, DecidableEq

/-- `NewBar(total)` from `bar.go`. -/
def NewBar (now : ℚ) (total : ℤ) : ProgressBar :=
  { current := 0
    total := total
    description := ""
    width := 0
    barStyle := NewStyle
    completeStyle := NewStyle
    remainingStyle := NewStyle
    completeChar := "█"
    remainingChar := "░"
    tracker := newTracker now }

/-- `ProgressBar.SetProgress` from `bar.go`: clamp into `[0, total]`
(first at 0, then at `total`), store, and record into the tracker. -/
def ProgressBar.SetProgress (pb : ProgressBar) (now : ℚ) (current : ℤ) : ProgressBar :=
  let current := if current < 0 then 0 else current
  let current := if current > pb.total then pb.total else current
  { pb with current := current, tracker := pb.tracker.update now current }

/-- `ProgressBar.Advance` from `bar.go`. -/
def ProgressBar.Advance (pb : ProgressBar) (now : ℚ) (delta : ℤ) : ProgressBar :=
  pb.SetProgress now (pb.current + delta)

/-- `ProgressBar.Percentage` from `bar.go`. -/
def ProgressBar.Percentage (pb : ProgressBar) : ℚ :=
  if pb.total = 0 then 0 else (pb.current : ℚ) / (pb.total : ℚ)

/-- `ProgressBar.IsComplete` from `bar.go`. -/
def ProgressBar.IsComplete (pb : ProgressBar) : Bool :=
  pb.current ≥ pb.total

/-- The auto-sizing branch of `ProgressBar.Render` (`barWidth == 0`):
`descLen := len(pb.description)` (bytes, hence `utf8ByteSize`), plus one
when positive for the separating space; `percentLen := 6`; the result is
`width - descLen - percentLen` floored at the minimum bar width 10. -/
def autoBarWidth (description : String) (width : ℤ) : ℤ :=
  let descLen : ℤ := (description.utf8ByteSize : ℤ)
  let descLen := if descLen > 0 then descLen + 1 else descLen
  let percentLen : ℤ := 6
  let bw := width - descLen - percentLen
  if bw < 10 then 10 else bw

/-- `ProgressBar.Render` from `bar.go` (the `console` argument is unused
by the Go body; only `width` matters). The Go code grows one `segments`
slice; here each conditional append is a conditional singleton and the
result is their concatenation, in the same order. -/
def ProgressBar.Render (pb : ProgressBar) (width : ℤ) : Segments :=
  let descSegs : Segments :=
    if pb.description ≠ "" then [⟨pb.description ++ " ", NewStyle⟩] else []
  let barWidth := if pb.width = 0 then autoBarWidth pb.description width else pb.width
  let percentage := pb.Percentage
  let fillWidth := truncToInt ((barWidth : ℚ) * percentage)
  let emptyWidth := barWidth - fillWidth
  let fillSegs : Segments :=
    if fillWidth > 0 then [⟨stringsRepeat pb.completeChar fillWidth, pb.completeStyle⟩] else []
  let emptySegs : Segments :=
    if emptyWidth > 0 then [⟨stringsRepeat pb.remainingChar emptyWidth, pb.remainingStyle⟩] else []
  let percentText :=
    " " ++ (if percentage ≥ 99995 / 100000 then "100%" else formatPercentage percentage)
  descSegs ++ fillSegs ++ emptySegs ++ [⟨percentText, NewStyle⟩]

/-! ## Spinner (`progress/spinner.go`, `src/unnamed/part_010`) -/

/-- `Spinner` from `spinner.go`; the interval is in milliseconds. -/
structure Spinner where
  frames : List String
  frameIndex : ℕ
  intervalMs : ℚ
  style : Style
  description : String
deriving Repr, DecidableEq

/-- `SpinnerDots` from `spinner.go`: the default Braille frame set. -/
def SpinnerDots : List String :=
  ["⠋", "⠙", "⠹", "⠸", "⠼", "⠴", "⠦", "⠧", "⠇", "⠏"]

/-- `NewSpinner(frames)` from `spinner.go`: an empty frame slice is
replaced by `SpinnerDots`. -/
def NewSpinner (frames : List String) : Spinner :=
  let frames := if frames.length = 0 then SpinnerDots else frames
  { frames := frames
    frameIndex := 0
    intervalMs := 80
    style := NewStyle
    description := "" }

/-- `Spinner.Description` builder from `spinner.go`. -/
def Spinner.withDescription (s : Spinner) (desc : String) : Spinner :=
  { s with description := desc }

/-- `Spinner.Next` from `spinner.go`:
`s.frameIndex = (s.frameIndex + 1) % len(s.frames)`. -/
def Spinner.Next (s : Spinner) : Spinner :=
  { s with frameIndex := (s.frameIndex + 1) % s.frames.length }

/-- `Spinner.CurrentFrame` from `spinner.go` indexes
`s.frames[s.frameIndex]`, which panics when out of range; the `Option`
models that fallible access. -/
def Spinner.CurrentFrame? (s : Spinner) : Option String :=
  s.frames.get? s.frameIndex

/-- `Spinner.Render` from `spinner.go`: current frame, then the
description prefixed by a space when present. -/
def Spinner.Render (s : Spinner) (_width : ℤ) : Segments :=
  let segments : Segments := [⟨s.CurrentFrame?.getD "", s.style⟩]
  if s.description ≠ "" then
    segments ++ [⟨" " ++ s.description, NewStyle⟩]
  else segments

/-! ## Redraw engine (`progress/progress.go`, in `src/progress/bar_test.go`) -/

/-- The ANSI control constants from `progress.go`. `cursorUp` is a format
string `"\x1b[%dA"`; `cursorUpN n` is its instantiation. -/
def cursorLeft : String := "\x1b[1000D"

/-- `clearLine`: clear from cursor to end of line. -/
def clearLine : String := "\x1b[0K"

/-- `hideCursor`. -/
def hideCursor : String := "\x1b[?25l"

/-- `showCursor`. -/
def showCursor : String := "\x1b[?25h"

/-- `fmt.Fprintf(w, cursorUp, n)`. -/
def cursorUpN (n : ℤ) : String := "\x1b[" ++ formatInt n ++ "A"

/-- `Task` from `progress.go`: exactly one of `bar`/`spinner` is set by
the registration paths. -/
structure Task where
  id : ℤ
  bar : Option ProgressBar
  spinner : Option Spinner
  startTime : ℚ
  completed : Bool
deriving Repr, DecidableEq

/-- `Progress` from `progress.go`. The Go `map[TaskID]*Task` is an
association list here; `ticker`, `stopChan`, the writer and the console
are runtime plumbing with no sequential state beyond what is kept. The
engine's console is modelled at `ColorModeNone`, where `Segments.ToANSI`
is plain text (`segment.go`). -/
structure Progress where
  tasks : List (ℤ × Task)
  taskSeq : ℤ
  running : Bool
  refreshRate : ℚ
  transient : Bool
  lastLineCount : ℤ
deriving Repr, DecidableEq

/-- `New(console)` from `progress.go`. -/
def Progress.new : Progress :=
  { tasks := []
    taskSeq := 0
    running := false
    refreshRate := 1/10
    transient := false
    lastLineCount := 0 }

/-- `Progress.Add(bar)` from `progress.go`: allocate the next id and
store a bar task. Returns the updated state and the id. -/
def Progress.Add (p : Progress) (now : ℚ) (bar : ProgressBar) : Progress × ℤ :=
  let id := p.taskSeq + 1
  ({ p with
      taskSeq := id
      tasks := p.tasks ++ [(id, { id := id, bar := some bar, spinner := none
                                  startTime := now, completed := false })] },
   id)

/-- `Progress.AddSpinnerWithStyle(spinner)` from `progress.go`. -/
def Progress.AddSpinnerWithStyle (p : Progress) (now : ℚ) (s : Spinner) : Progress × ℤ :=
  let id := p.taskSeq + 1
  ({ p with
      taskSeq := id
      tasks := p.tasks ++ [(id, { id := id, bar := none, spinner := some s
                                  startTime := now, completed := false })] },
   id)

/-- Replace the task stored under `id` (the Go code mutates the task's
bar through the map's pointer). -/
def Progress.setTask (p : Progress) (id : ℤ) (task : Task) : Progress :=
  { p with tasks := p.tasks.map (fun kv => if kv.1 = id then (kv.1, task) else kv) }

/-- `Progress.Update(id, value)` from `progress.go`: look the task up;
return unchanged when the id is unknown or `task.bar == nil`; otherwise
delegate to the bar's `SetProgress`. -/
def Progress.Update (p : Progress) (now : ℚ) (id : ℤ) (value : ℤ) : Progress :=
  match p.tasks.lookup id with
  | none => p
  | some task =>
      match task.bar with
      | none => p
      | some bar =>
          p.setTask id { task with bar := some (bar.SetProgress now value) }

/-- `Progress.Advance(id, delta)` from `progress.go`. -/
def Progress.Advance (p : Progress) (now : ℚ) (id : ℤ) (delta : ℤ) : Progress :=
  match p.tasks.lookup id with
  | none => p
  | some task =>
      match task.bar with
      | none => p
      | some bar =>
          p.setTask id { task with bar := some (bar.Advance now delta) }

/-- `Progress.Complete(id)` from `progress.go`. -/
def Progress.Complete (p : Progress) (id : ℤ) : Progress :=
  match p.tasks.lookup id with
  | none => p
  | some task => p.setTask id { task with completed := true }

/-- `Progress.Remove(id)` from `progress.go`. -/
def Progress.Remove (p : Progress) (id : ℤ) : Progress :=
  { p with tasks := p.tasks.filter (fun kv => kv.1 ≠ id) }

/-- The per-task body of the render loop in `Progress.render`: move to
column 0, clear the line, render the bar or the spinner (both `nil`
renders an empty segment list), and write its plain text (the console is
at `ColorModeNone`). The trailing `Fprintln` newline ends the line; one
list element per written line. -/
def renderTaskLine (task : Task) (consoleWidth : ℤ) : String :=
  let segments : Segments :=
    match task.bar with
    | some bar => bar.Render consoleWidth
    | none =>
        match task.spinner with
        | some sp => sp.Render consoleWidth
        | none => []
  cursorLeft ++ clearLine ++ Segments.toPlainString segments

/-- `Progress.render` from `progress.go`: return immediately when there
are no tasks (without touching `lastLineCount`); otherwise emit the
cursor-up prologue when `lastLineCount > 0`, paint one line per task, and
store the painted line count. The result is the new state paired with the
list of task lines written during this repaint (the cursor-up prologue is
not a task line). -/
def Progress.render (p : Progress) (consoleWidth : ℤ) : Progress × List String :=
  if p.tasks.length = 0 then (p, [])
  else
    let lines := p.tasks.map (fun kv => renderTaskLine kv.2 consoleWidth)
    ({ p with lastLineCount := (lines.length : ℤ) }, lines)

/-- `Progress.advanceSpinners` from `progress.go`. -/
def Progress.advanceSpinners (p : Progress) : Progress :=
  { p with
      tasks := p.tasks.map (fun kv =>
        match kv.2.spinner with
        | some sp => (kv.1, { kv.2 with spinner := some sp.Next })
        | none => kv) }

/-- `Progress.clear` from `progress.go` (transient stop): no-op when
nothing was painted; otherwise move up, blank each line, move back up,
and zero `lastLineCount`. Output is the raw byte stream written. -/
def Progress.clear (p : Progress) : Progress × String :=
  if p.lastLineCount = 0 then (p, "")
  else
    let out :=
      cursorUpN p.lastLineCount
        ++ String.join (List.replicate p.lastLineCount.toNat (cursorLeft ++ clearLine ++ "\n"))
        ++ cursorUpN p.lastLineCount
    ({ p with lastLineCount := 0 }, out)

/-! ## Concrete states used by the claim theorems below -/

/-- A tracker after `n` `update` calls: the `i`-th call (0-based) records
value `i + 1` at timestamp `i` seconds, so call number `k` (1-based)
records value `k`. -/
def nRecordsTracker (n : ℕ) : Tracker :=
  (List.range n).foldl (fun (t : Tracker) (i : ℕ) => t.update (i : ℚ) ((i : ℤ) + 1)) (newTracker 0)

/-- An engine that painted one line and then lost its only task:
add a bar, repaint once (one line painted), remove the task. -/
def staleLineCountState : Progress :=
  ((((Progress.new.Add 0 (NewBar 0 10)).1.render 80).1).Remove 1)

/-- An engine holding a single bar task. -/
def oneBarState : Progress :=
  (Progress.new.Add 0 (NewBar 0 10)).1

/-- An engine holding a single spinner task (id 1). -/
def oneSpinnerState : Progress :=
  (Progress.new.AddSpinnerWithStyle 0 (NewSpinner [])).1

/-- The task stored in `oneSpinnerState` under id 1. -/
def oneSpinnerTask : Task :=
  { id := 1, bar := none, spinner := some (NewSpinner [])
    startTime := 0, completed := false }

/-! ## Helper lemmas -/

lemma utf8ByteSize_go_pos (c : Char) (cs : List Char) :
    0 < String.utf8ByteSize.go (c :: cs) := by
  simp only [String.utf8ByteSize.go]
  have := Char.utf8Size_pos c
  omega

/-- Go's `len(s)` (bytes) is zero exactly on the empty string. -/
lemma utf8ByteSize_eq_zero_iff (s : String) :
    s.utf8ByteSize = 0 ↔ s = "" := by
  cases s with
  | mk data =>
      cases data with
      | nil => simp [String.utf8ByteSize, String.utf8ByteSize.go]
      | cons c cs =>
          constructor
          · intro h
            exact absurd h (Nat.ne_of_gt (utf8ByteSize_go_pos c cs))
          · intro h
            have hd := congrArg String.data h
            simp at hd

/-- The auto bar width is the available width minus the description's
byte length (plus one separating space when non-empty) minus the fixed
6-character percentage allowance, floored at 10. -/
lemma autoBarWidth_eq (desc : String) (w : ℤ) :
    autoBarWidth desc w
      = max 10 (w - ((desc.utf8ByteSize : ℤ) + (if desc ≠ "" then 1 else 0)) - 6) := by
  simp only [autoBarWidth]
  by_cases hd : desc = ""
  · have h0 : desc.utf8ByteSize = 0 := (utf8ByteSize_eq_zero_iff desc).mpr hd
    rw [h0]
    simp only [hd]
    norm_num
    split <;> omega
  · have h0 : desc.utf8ByteSize ≠ 0 := fun h => hd ((utf8ByteSize_eq_zero_iff desc).mp h)
    have hpos : (0 : ℤ) < (desc.utf8ByteSize : ℤ) := by
      have := Nat.pos_of_ne_zero h0
      exact_mod_cast this
    rw [if_pos hpos, if_pos hd]
    split <;> omega

/-- `Next` iterated `k` times leaves the frames untouched and moves the
index to `(frameIndex + k) % len(frames)`. -/
lemma next_iterate (s : Spinner) (k : ℕ) (h : s.frameIndex < s.frames.length) :
    (Spinner.Next^[k] s).frames = s.frames
    ∧ (Spinner.Next^[k] s).frameIndex = (s.frameIndex + k) % s.frames.length := by
  induction k with
  | zero => simpa using (Nat.mod_eq_of_lt h).symm
  | succ n ih =>
      rw [Function.iterate_succ_apply']
      refine ⟨ih.1, ?_⟩
      show ((Spinner.Next^[n] s).frameIndex + 1) % (Spinner.Next^[n] s).frames.length
          = (s.frameIndex + (n + 1)) % s.frames.length
      rw [ih.1, ih.2, Nat.mod_add_mod, ← Nat.add_assoc]

/-! ## Claim theorems -/

/-- C1 (counterexample to the claim as stated): in a reachable engine
state with zero tasks and a stale `lastLineCount` of 1 (a bar was added,
painted once, then removed), the render step writes zero task lines yet
leaves `lastLineCount` at 1, so "after the repaint `last_painted_line_count`
equals the number of task lines written … including one with zero tasks"
is false: `render` returns early on an empty task map without updating
the counter. -/
theorem C1_counterexample :
    ¬ ((staleLineCountState.render 80).1.lastLineCount
        = ((staleLineCountState.render 80).2.length : ℤ)) := by
  decide

/-- C1 (amended): for every repaint whose task map is non-empty, after
the repaint `lastLineCount` equals the number of task lines written
(one line per task); a render with zero tasks writes nothing and returns
the state unchanged (in particular `lastLineCount` is untouched). -/
theorem C1_render_lastLineCount (p : Progress) (w : ℤ) :
    (p.tasks ≠ [] →
       (p.render w).1.lastLineCount = ((p.render w).2.length : ℤ)
       ∧ (p.render w).2.length = p.tasks.length)
    ∧ (p.tasks = [] → p.render w = (p, [])) := by
  constructor
  · intro h
    have hlen : ¬ p.tasks.length = 0 := by simpa using h
    rw [Progress.render, if_neg hlen]
    simp
  · intro h
    rw [Progress.render]
    simp [h]

/-- C1 witness: the amended statement applied to a one-task engine. -/
theorem C1_render_lastLineCount_witness :
    oneBarState.tasks ≠ []
    ∧ (oneBarState.render 80).1.lastLineCount
        = ((oneBarState.render 80).2.length : ℤ) :=
  ⟨by decide, ((C1_render_lastLineCount oneBarState 80).1 (by decide)).1⟩

/-- C2: for every bar with `total > 0`, `SetProgress v` clamps `current`
into `[0, total]` (never signalling an error — the operation is total),
and `Percentage` then yields `clamp(v, 0, total) / total`. -/
theorem C2_setProgress_clamp_percentage (pb : ProgressBar) (now : ℚ) (v : ℤ)
    (h : 0 < pb.total) :
    (pb.SetProgress now v).Percentage
        = ((max 0 (min v pb.total) : ℤ) : ℚ) / (pb.total : ℚ)
      ∧ 0 ≤ (pb.SetProgress now v).current
      ∧ (pb.SetProgress now v).current ≤ (pb.SetProgress now v).total
      ∧ (pb.SetProgress now v).total = pb.total := by
  have hcur : (pb.SetProgress now v).current = max 0 (min v pb.total) := by
    simp only [ProgressBar.SetProgress]
    split_ifs <;> omega
  have htot : (pb.SetProgress now v).total = pb.total := rfl
  refine ⟨?_, ?_, ?_, htot⟩
  · rw [ProgressBar.Percentage, htot, if_neg (by omega), hcur]
  · rw [hcur]; omega
  · rw [hcur, htot]; omega

/-- C2 witness: an out-of-range write on a fresh bar of total 100. -/
theorem C2_setProgress_clamp_percentage_witness :
    (0 : ℤ) < (NewBar 0 100).total
    ∧ ((NewBar 0 100).SetProgress 1 150).Percentage
        = ((max 0 (min 150 (NewBar 0 100).total) : ℤ) : ℚ) / ((NewBar 0 100).total : ℚ) :=
  ⟨by decide, (C2_setProgress_clamp_percentage (NewBar 0 100) 1 150 (by decide)).1⟩

/-- C4: `Update` and `Advance` on an id that is unknown, or whose task
holds a spinner (no bar), return the whole engine state unchanged —
every task, tracker and counter is untouched and no error is
signalled. -/
theorem C4_update_advance_silent_noop (p : Progress) (now : ℚ) (id v d : ℤ)
    (h : p.tasks.lookup id = none
         ∨ ∃ task, p.tasks.lookup id = some task ∧ task.bar = none) :
    p.Update now id v = p ∧ p.Advance now id d = p := by
  rcases h with h | ⟨task, hl, hb⟩
  · constructor <;> simp [Progress.Update, Progress.Advance, h]
  · constructor <;> simp [Progress.Update, Progress.Advance, hl, hb]

/-- C4 witness: updates addressed to a spinner-only task are dropped. -/
theorem C4_update_advance_silent_noop_witness :
    oneSpinnerState.Update 0 1 42 = oneSpinnerState
    ∧ oneSpinnerState.Advance 0 1 5 = oneSpinnerState :=
  C4_update_advance_silent_noop oneSpinnerState 0 1 42 5
    (Or.inr ⟨oneSpinnerTask, by decide, rfl⟩)

/-- C3: the tracker's speed computation agrees with the specified
algorithm: 0 with fewer than two samples; otherwise the suffix of
samples within the last 2 seconds of `now` is selected, the entire
window is used instead when that suffix has fewer than 2 samples, and
the result is `(last.value - first.value) / (last.timestamp -
first.timestamp)` over the selection's endpoints, 0 when that time
difference is zero. -/
theorem C3_speed_matches_spec (t : Tracker) (now : ℚ) :
    t.speed now = speedSpec t.samples now
    ∧ (t.samples.length < 2 → t.speed now = 0) := by
  constructor
  · rw [Tracker.speed, speedSpec]
    by_cases h : t.samples.length < 2
    · simp [h]
    · rw [if_neg h, if_neg h]
      rw [if_neg (by omega : ¬ ((((t.samples.reverse.takeWhile
            (fun s => decide (now - s.timestamp ≤ 2))).reverse).length < 2)
          ∧ ¬ t.samples.length ≥ 2))]
      rw [speedEndpoints]
  · intro h
    rw [Tracker.speed, if_pos h]

/-- C5: `eta` is a total function: it returns 0 when `current ≥ total`
or when the rate is zero or negative, otherwise
`(total - current) / rate` capped at 24 hours (86400 s), and its result
always lies in `[0, 86400]`. -/
theorem C5_eta_total_bounded (t : Tracker) (now : ℚ) (current total : ℤ) :
    (current ≥ total → t.eta now current total = 0)
    ∧ (t.speed now ≤ 0 → t.eta now current total = 0)
    ∧ (current < total → 0 < t.speed now →
        t.eta now current total
          = min (((total - current : ℤ) : ℚ) / t.speed now) 86400)
    ∧ 0 ≤ t.eta now current total ∧ t.eta now current total ≤ 86400 := by
  refine ⟨?_, ?_, ?_, ?_⟩
  · intro h
    rw [Tracker.eta, if_pos h]
  · intro h
    simp only [Tracker.eta]
    split_ifs <;> rfl
  · intro hlt hspd
    simp only [Tracker.eta]
    rw [if_neg (by omega : ¬ current ≥ total), if_neg (not_le.mpr hspd)]
    rcases le_or_lt (((total - current : ℤ) : ℚ) / t.speed now) 86400 with hle | hgt
    · rw [if_neg (not_lt.mpr hle), min_eq_left hle]
    · rw [if_pos hgt, min_eq_right (le_of_lt hgt)]
  · simp only [Tracker.eta]
    split_ifs with h1 h2 h3
    · norm_num
    · norm_num
    · norm_num
    · have hrem : (0 : ℚ) ≤ ((total - current : ℤ) : ℚ) := by
        have h0 : (0 : ℤ) ≤ total - current := by omega
        exact_mod_cast h0
      have hq : 0 ≤ ((total - current : ℤ) : ℚ) / t.speed now :=
        div_nonneg hrem (le_of_lt (lt_of_not_le h2))
      exact ⟨hq, le_of_not_lt h3⟩

/-- C5 witness: a fresh tracker has rate 0, so the estimate degrades to
the 0 sentinel instead of an error. -/
theorem C5_eta_total_bounded_witness :
    (newTracker 0).speed 1 ≤ 0 ∧ (newTracker 0).eta 1 5 10 = 0 :=
  ⟨by decide, (C5_eta_total_bounded (newTracker 0) 1 5 10).2.1 (by decide)⟩

/-- C6: with no explicit width configured (`width = 0`) and a
non-negative percentage (every bar reachable through `NewBar` /
`SetProgress` has one), `Render` uses a working bar width of the
available width minus the description's byte length (plus one separating
space when the description is non-empty) minus 6 for the percentage
suffix, floored at 10; the filled run has width
`⌊bar_width * percentage⌋` and the empty run the remainder; and the
emitted segments appear in the order: description (if non-empty, with a
trailing space), filled-glyph run in the complete style, empty-glyph run
in the remaining style, then the percentage string. -/
theorem C6_bar_render_auto_width (pb : ProgressBar) (w : ℤ)
    (hw : pb.width = 0) (hp : 0 ≤ pb.Percentage) :
    pb.Render w =
      (if pb.description ≠ "" then [Segment.mk (pb.description ++ " ") NewStyle] else [])
      ++ (if (⌊((max 10 (w - ((pb.description.utf8ByteSize : ℤ)
                + (if pb.description ≠ "" then 1 else 0)) - 6) : ℤ) : ℚ) * pb.Percentage⌋ > 0)
          then [Segment.mk (stringsRepeat pb.completeChar
                  ⌊((max 10 (w - ((pb.description.utf8ByteSize : ℤ)
                    + (if pb.description ≠ "" then 1 else 0)) - 6) : ℤ) : ℚ) * pb.Percentage⌋)
                pb.completeStyle]
          else [])
      ++ (if (max 10 (w - ((pb.description.utf8ByteSize : ℤ)
                + (if pb.description ≠ "" then 1 else 0)) - 6)
              - ⌊((max 10 (w - ((pb.description.utf8ByteSize : ℤ)
                  + (if pb.description ≠ "" then 1 else 0)) - 6) : ℤ) : ℚ) * pb.Percentage⌋ > 0)
          then [Segment.mk (stringsRepeat pb.remainingChar
                  (max 10 (w - ((pb.description.utf8ByteSize : ℤ)
                    + (if pb.description ≠ "" then 1 else 0)) - 6)
                   - ⌊((max 10 (w - ((pb.description.utf8ByteSize : ℤ)
                      + (if pb.description ≠ "" then 1 else 0)) - 6) : ℤ) : ℚ) * pb.Percentage⌋))
                pb.remainingStyle]
          else [])
      ++ [Segment.mk (" " ++ (if pb.Percentage ≥ 99995 / 100000 then "100%"
              else formatPercentage pb.Percentage)) NewStyle] := by
  have hb : autoBarWidth pb.description w
      = max 10 (w - ((pb.description.utf8ByteSize : ℤ)
          + (if pb.description ≠ "" then 1 else 0)) - 6) :=
    autoBarWidth_eq pb.description w
  have hbw : (0 : ℚ) ≤ ((max 10 (w - ((pb.description.utf8ByteSize : ℤ)
      + (if pb.description ≠ "" then 1 else 0)) - 6) : ℤ) : ℚ) := by
    have h10 : (10 : ℤ) ≤ max 10 (w - ((pb.description.utf8ByteSize : ℤ)
        + (if pb.description ≠ "" then 1 else 0)) - 6) := le_max_left _ _
    have h0 : (0 : ℤ) ≤ max 10 (w - ((pb.description.utf8ByteSize : ℤ)
        + (if pb.description ≠ "" then 1 else 0)) - 6) := by omega
    exact_mod_cast h0
  have ht : truncToInt (((max 10 (w - ((pb.description.utf8ByteSize : ℤ)
      + (if pb.description ≠ "" then 1 else 0)) - 6) : ℤ) : ℚ) * pb.Percentage)
      = ⌊((max 10 (w - ((pb.description.utf8ByteSize : ℤ)
          + (if pb.description ≠ "" then 1 else 0)) - 6) : ℤ) : ℚ) * pb.Percentage⌋ := by
    rw [truncToInt, if_neg (not_lt.mpr (mul_nonneg hbw hp))]
  simp only [ProgressBar.Render, hw, if_pos, if_true, eq_self_iff_true, hb, ht]

lemma newBar100_percentage_eq : (NewBar 0 100).Percentage = 0 := by
  simp [NewBar, ProgressBar.Percentage]

lemma utf8ByteSize_empty : ("" : String).utf8ByteSize = 0 := rfl

/-- C6 witness: a fresh bar of total 100 at width 80 renders an empty run
of 74 glyphs followed by the percentage string. -/
theorem C6_bar_render_auto_width_witness :
    (NewBar 0 100).width = 0
    ∧ 0 ≤ (NewBar 0 100).Percentage
    ∧ (NewBar 0 100).Render 80 =
        [Segment.mk (stringsRepeat "░" 74) NewStyle, Segment.mk " 0%" NewStyle] := by
  have hp : 0 ≤ (NewBar 0 100).Percentage := le_of_eq newBar100_percentage_eq.symm
  refine ⟨rfl, hp, (C6_bar_render_auto_width (NewBar 0 100) 80 rfl hp).trans ?_⟩
  rw [newBar100_percentage_eq]
  norm_num [stringsRepeat, formatPercentage, truncToInt, formatInt, NewBar, newTracker,
    utf8ByteSize_empty]
  rfl

set_option maxRecDepth 10000 in
/-- C7: recording 150 samples one at a time into a fresh tracker leaves
a window of exactly 99 entries whose last entry holds the 150th recorded
value; the window holds 100 entries after 100 insertions, and pruning
triggers at the 101st insertion, reducing the window to 50, after which
it grows again. -/
theorem C7_prune_150_samples :
    (nRecordsTracker 150).samples.length = 99
    ∧ ((nRecordsTracker 150).samples.getLast?).map Sample.value = some 150
    ∧ (nRecordsTracker 100).samples.length = 100
    ∧ (nRecordsTracker 101).samples.length = 50 := by
  decide

set_option maxRecDepth 10000 in
/-- C8 (the code violates the claim): at the 101st `record` call
(value 101 at timestamp 100) the prune
`copy(t.samples, t.samples[50:]); t.samples = t.samples[:50]` keeps the
first 50 elements of `samples[50:]` — old indices 50…99 — and so drops
the sample just appended: immediately after that call returns, the
window's last element holds value 100, not the appended value 101, and
the appended `(100, 101)` sample is not in the window at all. This
contradicts the code's own comment ("Keep the 50 most recent samples")
and the claim's append-only/prune-from-the-front contract. -/
theorem C8_record_drops_newest_at_101 :
    ((nRecordsTracker 101).samples.getLast?).map Sample.value = some 100
    ∧ ((nRecordsTracker 101).samples.getLast?).map Sample.value ≠ some 101
    ∧ Sample.mk 100 101 ∉ (nRecordsTracker 101).samples
    ∧ ((nRecordsTracker 101).samples.head?).map Sample.value = some 51 := by
  refine ⟨by decide, by decide, ?_, by decide⟩
  decide

/-- C9: `Next` advances the frame index by exactly one position, wrapping
to 0 after the last frame; the index always stays a valid index into
`frames`; and `len(frames)` calls return the index to its original
value. -/
theorem C9_spinner_next_cyclic (s : Spinner) (h : s.frameIndex < s.frames.length) :
    s.Next.frameIndex = (s.frameIndex + 1) % s.frames.length
    ∧ (∀ k : ℕ, (Spinner.Next^[k] s).frameIndex < s.frames.length)
    ∧ (Spinner.Next^[s.frames.length] s).frameIndex = s.frameIndex := by
  have hlen : 0 < s.frames.length := Nat.lt_of_le_of_lt (Nat.zero_le _) h
  refine ⟨rfl, ?_, ?_⟩
  · intro k
    rw [(next_iterate s k h).2]
    exact Nat.mod_lt _ hlen
  · rw [(next_iterate s s.frames.length h).2, Nat.add_mod_right, Nat.mod_eq_of_lt h]

/-- C9 witness: a three-frame spinner returns to its initial index after
three `Next` calls. -/
theorem C9_spinner_next_cyclic_witness :
    (NewSpinner ["a", "b", "c"]).frameIndex < (NewSpinner ["a", "b", "c"]).frames.length
    ∧ (Spinner.Next^[(NewSpinner ["a", "b", "c"]).frames.length]
        (NewSpinner ["a", "b", "c"])).frameIndex = (NewSpinner ["a", "b", "c"]).frameIndex :=
  ⟨by decide, (C9_spinner_next_cyclic (NewSpinner ["a", "b", "c"]) (by decide)).2.2⟩

/-- C10: `NewSpinner` substitutes the default `SpinnerDots` frames when
given an empty slice, so every constructed spinner has non-empty frames
and a valid frame index; and for any spinner whose index is valid,
`CurrentFrame` is an in-bounds access and `Next` keeps the index
valid. -/
theorem C10_newSpinner_default_safe (frames : List String) :
    (NewSpinner frames).frames ≠ []
    ∧ (NewSpinner frames).frameIndex < (NewSpinner frames).frames.length
    ∧ (frames = [] → (NewSpinner frames).frames = SpinnerDots)
    ∧ (∀ s : Spinner, s.frameIndex < s.frames.length →
        (s.CurrentFrame?).isSome ∧ s.Next.frameIndex < s.Next.frames.length) := by
  have hne : (NewSpinner frames).frames ≠ [] := by
    simp only [NewSpinner]
    split
    · decide
    · next hlen => exact fun hnil => hlen (by simp [hnil])
  refine ⟨hne, ?_, ?_, ?_⟩
  · show 0 < (NewSpinner frames).frames.length
    exact List.length_pos.mpr hne
  · intro h
    simp [NewSpinner, h]
  · intro s hs
    constructor
    · rw [Spinner.CurrentFrame?, List.get?_eq_get hs]
      rfl
    · show (s.frameIndex + 1) % s.frames.length < s.frames.length
      exact Nat.mod_lt _ (Nat.lt_of_le_of_lt (Nat.zero_le _) hs)

/-- C10 witness: constructing from an empty slice still yields a spinner
whose current-frame access is in bounds. -/
theorem C10_newSpinner_default_safe_witness :
    (NewSpinner []).frames = SpinnerDots ∧ ((NewSpinner []).CurrentFrame?).isSome :=
  ⟨(C10_newSpinner_default_safe []).2.2.1 rfl,
   ((C10_newSpinner_default_safe []).2.2.2 (NewSpinner []) (by decide)).1⟩

end GoRich
